import Mathlib

/-!
# Camera frame-of-reference mathematics of `Scene.cpp`

A shallow embedding of the `glt*` routines of `src/Scene.cpp`.

* `GLfloat` / `float` values are elements of an arbitrary field `α`; the
  theorems instantiate `α` with `ℝ`, so every statement is about exact real
  arithmetic (casts such as `(float)` are then the identity).
* `Binary32` is the rounded arithmetic of `GLfloat` itself (24 binary digits,
  round to nearest even); the routines that need only `+` and `*` run on it
  unchanged.
* `sqrt`, `sin` and `cos` of `<math.h>` are passed as functions `α → α`; the
  theorems pass `Real.sqrt`, `Real.sin` and `Real.cos`.
* `GLTVector3` (`GLfloat[3]`) is `Fin 3 → α` and `GLTMatrix` (`GLfloat[16]`,
  column major) is `Fin 16 → α`, so that `m i` is the C expression `m[i]`.
* A C output array that the routine assigns in full on every path is the
  return value of the Lean function.
* C `int` values are `Int` (no arithmetic of the source comes near the bounds
  of `int`); the conversion of a floating value to `int` truncates toward zero.
* The `for` loop of `drawGround` spends one unit of fuel on each evaluation of
  its condition and returns `none` when the fuel runs out.
-/

namespace Scene

/-- Three component vector, `typedef GLfloat GLTVector3[3]`. -/
abbrev GLTVector3 (α : Type) := Fin 3 → α

/-- Column major 4x4 matrix, `typedef GLfloat GLTMatrix[16]`. -/
abbrev GLTMatrix (α : Type) := Fin 16 → α

/-- The frame of reference container, `GLTFrame`. -/
structure GLTFrame (α : Type) where
  vLocation : GLTVector3 α
  vUp : GLTVector3 α
  vForward : GLTVector3 α

section Arith

variable {α : Type}

/-- The routine `Scene::gltInitFrame`, with the initialised frame returned.  It
needs only the constants `0`, `1` and the negation of the number type. -/
def gltInitFrame [Zero α] [One α] [Neg α] : GLTFrame α where
  vLocation := ![0, 0, 0]
  vUp := ![0, 1, 0]
  vForward := ![0, 0, -1]

/-- The routine `Scene::gltMoveFrameForward`: the three `+=` on `vLocation`.  It
needs only the `+` and `*` of the number type, so it can be run both in exact
arithmetic and in rounded binary32 arithmetic. -/
def gltMoveFrameForward [Add α] [Mul α] (pFrame : GLTFrame α) (fStep : α) : GLTFrame α :=
  { pFrame with
    vLocation :=
      ![pFrame.vLocation 0 + pFrame.vForward 0 * fStep,
        pFrame.vLocation 1 + pFrame.vForward 1 * fStep,
        pFrame.vLocation 2 + pFrame.vForward 2 * fStep] }

end Arith

section Defs

variable {α : Type} [Field α] [DecidableEq α]

/-- The constant `GLT_PI_DIV_180`, the decimal literal `0.017453292519943296`. -/
def GLT_PI_DIV_180 : α := 17453292519943296 / 1000000000000000000

/-- The conversion `gltDegToRad(x)`, defined as `((x)*GLT_PI_DIV_180)`. -/
def gltDegToRad (x : α) : α := x * GLT_PI_DIV_180

/-- The routine `Scene::gltVectorCrossProduct`, with `vResult` returned. -/
def gltVectorCrossProduct (vU vV : GLTVector3 α) : GLTVector3 α :=
  ![vU 1 * vV 2 - vV 1 * vU 2,
    -vU 0 * vV 2 + vV 0 * vU 2,
    vU 0 * vV 1 - vV 0 * vU 1]

/-- The routine `Scene::gltLoadIdentityMatrix`: the static `identity` table
copied over the whole of `m`. -/
def gltLoadIdentityMatrix : GLTMatrix α :=
  ![1, 0, 0, 0,
    0, 1, 0, 0,
    0, 0, 1, 0,
    0, 0, 0, 1]

/-- The routine `Scene::gltRotationMatrix`, with `mMatrix` returned.  The
entries are listed in index order `0..15`; the source assigns them in the
order `0,4,8,12, 1,5,9,13, 2,6,10,14, 3,7,11,15`. -/
def gltRotationMatrix (sqrt sin cos : α → α) (angle x y z : α) : GLTMatrix α :=
  if x = 0 ∧ y = 0 ∧ z = 0 then
    gltLoadIdentityMatrix
  else
    let vecLength := sqrt (x * x + y * y + z * z)
    let x := x / vecLength
    let y := y / vecLength
    let z := z / vecLength
    let sinSave := sin angle
    let cosSave := cos angle
    let oneMinusCos := 1 - cosSave
    let xx := x * x
    let yy := y * y
    let zz := z * z
    let xy := x * y
    let yz := y * z
    let zx := z * x
    let xs := x * sinSave
    let ys := y * sinSave
    let zs := z * sinSave
    ![(oneMinusCos * xx) + cosSave,   -- mMatrix[0]
      (oneMinusCos * xy) + zs,        -- mMatrix[1]
      (oneMinusCos * zx) - ys,        -- mMatrix[2]
      0,                              -- mMatrix[3]
      (oneMinusCos * xy) - zs,        -- mMatrix[4]
      (oneMinusCos * yy) + cosSave,   -- mMatrix[5]
      (oneMinusCos * yz) + xs,        -- mMatrix[6]
      0,                              -- mMatrix[7]
      (oneMinusCos * zx) + ys,        -- mMatrix[8]
      (oneMinusCos * yz) - xs,        -- mMatrix[9]
      (oneMinusCos * zz) + cosSave,   -- mMatrix[10]
      0,                              -- mMatrix[11]
      0,                              -- mMatrix[12]
      0,                              -- mMatrix[13]
      0,                              -- mMatrix[14]
      1]                              -- mMatrix[15]

/-- The routine `Scene::gltRotateVector`, with `vOut` returned. -/
def gltRotateVector (vSrcVector : GLTVector3 α) (mMatrix : GLTMatrix α) : GLTVector3 α :=
  ![mMatrix 0 * vSrcVector 0 + mMatrix 4 * vSrcVector 1 + mMatrix 8 * vSrcVector 2,
    mMatrix 1 * vSrcVector 0 + mMatrix 5 * vSrcVector 1 + mMatrix 9 * vSrcVector 2,
    mMatrix 2 * vSrcVector 0 + mMatrix 6 * vSrcVector 1 + mMatrix 10 * vSrcVector 2]

set_option linter.unusedVariables false in
/-- The routine `Scene::gltRotateFrameLocalY`.  Both calls of
`gltRotationMatrix` write the same local `mRotation`; the second call assigns
all sixteen entries again, so the matrix handed to `gltRotateVector` is the one
of the second call. -/
def gltRotateFrameLocalY (sqrt sin cos : α → α) (pFrame : GLTFrame α) (fAngle : α) :
    GLTFrame α :=
  let mRotation := gltRotationMatrix sqrt sin cos (gltDegToRad fAngle) 0 1 0
  let mRotation := gltRotationMatrix sqrt sin cos fAngle
    (pFrame.vUp 0) (pFrame.vUp 1) (pFrame.vUp 2)
  let vNewForward := gltRotateVector pFrame.vForward mRotation
  { pFrame with vForward := vNewForward }

/-- OpenGL `glMultMatrixf(m)` on the current matrix `cur` (external to the
repository, modelled after the OpenGL specification): the current matrix is
replaced by the product `cur * m`, both column major, so entry `4*col+row` of
the result is the sum over `k` of `cur[4*k+row] * m[4*col+k]`. -/
def glMultMatrixf (cur m : GLTMatrix α) : GLTMatrix α :=
  ![cur 0 * m 0 + cur 4 * m 1 + cur 8 * m 2 + cur 12 * m 3,
    cur 1 * m 0 + cur 5 * m 1 + cur 9 * m 2 + cur 13 * m 3,
    cur 2 * m 0 + cur 6 * m 1 + cur 10 * m 2 + cur 14 * m 3,
    cur 3 * m 0 + cur 7 * m 1 + cur 11 * m 2 + cur 15 * m 3,
    cur 0 * m 4 + cur 4 * m 5 + cur 8 * m 6 + cur 12 * m 7,
    cur 1 * m 4 + cur 5 * m 5 + cur 9 * m 6 + cur 13 * m 7,
    cur 2 * m 4 + cur 6 * m 5 + cur 10 * m 6 + cur 14 * m 7,
    cur 3 * m 4 + cur 7 * m 5 + cur 11 * m 6 + cur 15 * m 7,
    cur 0 * m 8 + cur 4 * m 9 + cur 8 * m 10 + cur 12 * m 11,
    cur 1 * m 8 + cur 5 * m 9 + cur 9 * m 10 + cur 13 * m 11,
    cur 2 * m 8 + cur 6 * m 9 + cur 10 * m 10 + cur 14 * m 11,
    cur 3 * m 8 + cur 7 * m 9 + cur 11 * m 10 + cur 15 * m 11,
    cur 0 * m 12 + cur 4 * m 13 + cur 8 * m 14 + cur 12 * m 15,
    cur 1 * m 12 + cur 5 * m 13 + cur 9 * m 14 + cur 13 * m 15,
    cur 2 * m 12 + cur 6 * m 13 + cur 10 * m 14 + cur 14 * m 15,
    cur 3 * m 12 + cur 7 * m 13 + cur 11 * m 14 + cur 15 * m 15]

/-- OpenGL `glTranslatef(x, y, z)` on the current matrix `cur` (external to the
repository, modelled after the OpenGL specification): the current matrix is
multiplied by the translation matrix whose fourth column is `(x, y, z, 1)`. -/
def glTranslatef (cur : GLTMatrix α) (x y z : α) : GLTMatrix α :=
  glMultMatrixf cur
    ![1, 0, 0, 0,
      0, 1, 0, 0,
      0, 0, 1, 0,
      x, y, z, 1]

/-- OpenGL vertex transformation (external to the repository, modelled after
the OpenGL specification): the homogeneous point `(v[0], v[1], v[2], 1)`
multiplied by the column major matrix `m`. -/
def glTransformVertex (m : GLTMatrix α) (v : GLTVector3 α) : Fin 4 → α :=
  ![m 0 * v 0 + m 4 * v 1 + m 8 * v 2 + m 12,
    m 1 * v 0 + m 5 * v 1 + m 9 * v 2 + m 13,
    m 2 * v 0 + m 6 * v 1 + m 10 * v 2 + m 14,
    m 3 * v 0 + m 7 * v 1 + m 11 * v 2 + m 15]

/-- The routine `Scene::gltApplyCameraTransform`, as a function of the OpenGL
current matrix `cur` it multiplies: the matrix stack is the only state the
routine changes, and the new current matrix is returned. -/
def gltApplyCameraTransform (cur : GLTMatrix α) (pCamera : GLTFrame α) : GLTMatrix α :=
  let zFlipped : GLTVector3 α :=
    ![-pCamera.vForward 0, -pCamera.vForward 1, -pCamera.vForward 2]
  let vAxisX := gltVectorCrossProduct pCamera.vUp zFlipped
  let mMatrix : GLTMatrix α :=
    ![vAxisX 0,        -- mMatrix[0]
      pCamera.vUp 0,   -- mMatrix[1]
      zFlipped 0,      -- mMatrix[2]
      0,               -- mMatrix[3]
      vAxisX 1,        -- mMatrix[4]
      pCamera.vUp 1,   -- mMatrix[5]
      zFlipped 1,      -- mMatrix[6]
      0,               -- mMatrix[7]
      vAxisX 2,        -- mMatrix[8]
      pCamera.vUp 2,   -- mMatrix[9]
      zFlipped 2,      -- mMatrix[10]
      0,               -- mMatrix[11]
      0,               -- mMatrix[12]
      0,               -- mMatrix[13]
      0,               -- mMatrix[14]
      1]               -- mMatrix[15]
  let cur := glMultMatrixf cur mMatrix
  glTranslatef cur (-pCamera.vLocation 0) (-pCamera.vLocation 1) (-pCamera.vLocation 2)

/-- The keys `Scene::keyPressEvent` tells apart; `other` is any key the
`switch` has no case for. -/
inductive Key where
  | Key_Up
  | Key_Down
  | Key_Left
  | Key_Right
  | other
  deriving DecidableEq, Repr

/-- The routine `Scene::keyPressEvent`, as the update of `frameCamera` (the
repaint request `updateGL()` does not touch the frame). -/
def keyPressEvent (sqrt sin cos : α → α) (frameCamera : GLTFrame α) (key : Key) :
    GLTFrame α :=
  match key with
  | Key.Key_Up => gltMoveFrameForward frameCamera (1 / 10)
  | Key.Key_Down => gltMoveFrameForward frameCamera (-(1 / 10))
  | Key.Key_Left => gltRotateFrameLocalY sqrt sin cos frameCamera (1 / 10)
  | Key.Key_Right => gltRotateFrameLocalY sqrt sin cos frameCamera (-(1 / 10))
  | Key.other => frameCamera

/-- The scalar product of two vectors (no routine of the source; it is used to
state lengths, orthogonality and the look-from coordinates). -/
def dot3 (u v : GLTVector3 α) : α :=
  u 0 * v 0 + u 1 * v 1 + u 2 * v 2

/-- The right-hand vector of a viewer who looks along `forward` with `up` as
vertical: the vector product `forward x up` by its textbook components (no
routine of the source; at forward `(0, 0, -1)` and up `(0, 1, 0)` it is
`(1, 0, 0)`). -/
def viewerRight (up forward : GLTVector3 α) : GLTVector3 α :=
  ![forward 1 * up 2 - forward 2 * up 1,
    forward 2 * up 0 - forward 0 * up 2,
    forward 0 * up 1 - forward 1 * up 0]

/-- The Rodrigues matrix as the specification writes it, `R[row][col]` for the
unit axis `(x, y, z)` with `s = sin angle`, `c = cos angle` and `t = 1 - c`. -/
def rodriguesSpec (s c x y z : α) : Fin 3 → Fin 3 → α :=
  let t := 1 - c
  ![![t * x * x + c, t * x * y - s * z, t * x * z + s * y],
    ![t * x * y + s * z, t * y * y + c, t * y * z - s * x],
    ![t * x * z - s * y, t * y * z + s * x, t * z * z + c]]

/-- The routine `Scene::gltRotationMatrix` with the division instrumented: the
result is `none` when the normalisation would divide by a zero `vecLength`,
and the matrix of `gltRotationMatrix` otherwise. -/
def gltRotationMatrixChecked (sqrt sin cos : α → α) (angle x y z : α) :
    Option (GLTMatrix α) :=
  if x = 0 ∧ y = 0 ∧ z = 0 then
    some gltLoadIdentityMatrix
  else
    let vecLength := sqrt (x * x + y * y + z * z)
    if vecLength = 0 then none
    else some (gltRotationMatrix sqrt sin cos angle x y z)

/-- The arguments `Scene::resizeGL` hands to `glViewport` (the four integers)
and to `gluPerspective` (the four floating values). -/
structure ResizeCalls (α : Type) where
  viewportX : Int
  viewportY : Int
  viewportWidth : Int
  viewportHeight : Int
  fovy : α
  aspect : α
  zNear : α
  zFar : α

/-- The routine `Scene::resizeGL`, as the arguments of its `glViewport` and
`gluPerspective` calls; `w` and `h` are C `int`, converted to `GLfloat` for the
division. -/
def resizeGL (w h : Int) : ResizeCalls α :=
  let h := if h = 0 then 1 else h
  let fAspect : α := (w : α) / (h : α)
  { viewportX := 0
    viewportY := 0
    viewportWidth := w
    viewportHeight := h
    fovy := 35
    aspect := fAspect
    zNear := 1
    zFar := 50 }

/-- One call of a frame mutator: `gltMoveFrameForward` with a step or
`gltRotateFrameLocalY` with an angle. -/
inductive FrameOp (α : Type) where
  | move (fStep : α)
  | rotate (fAngle : α)

/-- The frame after one mutator call. -/
def applyFrameOp (sqrt sin cos : α → α) (pFrame : GLTFrame α) : FrameOp α → GLTFrame α
  | FrameOp.move fStep => gltMoveFrameForward pFrame fStep
  | FrameOp.rotate fAngle => gltRotateFrameLocalY sqrt sin cos pFrame fAngle

/-- The frame after a finite sequence of mutator calls, first call first. -/
def runFrameOps (sqrt sin cos : α → α) (ops : List (FrameOp α)) (pFrame : GLTFrame α) :
    GLTFrame α :=
  ops.foldl (applyFrameOp sqrt sin cos) pFrame

/-- The frame invariant of the specification: up and forward have unit length
(their squared length is `1`) and are mutually orthogonal. -/
def isOrthonormalFrame (pFrame : GLTFrame α) : Prop :=
  dot3 pFrame.vUp pFrame.vUp = 1 ∧
    dot3 pFrame.vForward pFrame.vForward = 1 ∧
    dot3 pFrame.vUp pFrame.vForward = 0

/-- The sixteen assignments of the non-guard path of `Scene::gltRotationMatrix`,
as a function of `sinSave`, `cosSave` and the axis after the division by
`vecLength`. -/
def axisAngleMatrix (sinSave cosSave x y z : α) : GLTMatrix α :=
  ![((1 - cosSave) * (x * x)) + cosSave,
    ((1 - cosSave) * (x * y)) + z * sinSave,
    ((1 - cosSave) * (z * x)) - y * sinSave,
    0,
    ((1 - cosSave) * (x * y)) - z * sinSave,
    ((1 - cosSave) * (y * y)) + cosSave,
    ((1 - cosSave) * (y * z)) + x * sinSave,
    0,
    ((1 - cosSave) * (z * x)) + y * sinSave,
    ((1 - cosSave) * (y * z)) - x * sinSave,
    ((1 - cosSave) * (z * z)) + cosSave,
    0,
    0,
    0,
    0,
    1]

end Defs

section Drawing

variable {α : Type} [LinearOrderedField α] [FloorRing α]

/-- The C conversion of a floating value to `int`: truncation toward zero. -/
def truncToInt (x : α) : Int :=
  if 0 ≤ x then ⌊x⌋ else ⌈x⌉

/-- The `for` loop of `Scene::drawGround` from the loop variable `iLine` on:
`emitted` holds the `glVertex3f` calls made so far, one unit of `fuel` is spent
on each evaluation of the loop condition, and the result is `none` when the
fuel runs out before the condition fails. -/
def drawGroundLoop (fExtent fStep y : α) :
    Nat → Int → List (GLTVector3 α) → Option (List (GLTVector3 α))
  | 0, _, _ => none
  | fuel + 1, iLine, emitted =>
    if (iLine : α) ≤ fExtent then
      drawGroundLoop fExtent fStep y fuel (truncToInt ((iLine : α) + fStep))
        (emitted ++
          [![(iLine : α), y, fExtent],
            ![(iLine : α), y, -fExtent],
            ![fExtent, y, (iLine : α)],
            ![-fExtent, y, (iLine : α)]])
    else
      some emitted

/-- The routine `Scene::drawGround`, as the list of the vertices it passes to
`glVertex3f` between `glBegin(GL_LINES)` and `glEnd()`, in order. -/
def drawGround (fuel : Nat) : Option (List (GLTVector3 α)) :=
  let fExtent : α := 20
  let fStep : α := 1
  let y : α := -(4 / 10)
  drawGroundLoop fExtent fStep y fuel (truncToInt (-fExtent)) []

/-- OpenGL `GL_LINES` (external to the repository, modelled after the OpenGL
specification): consecutive vertices are paired into independent segments. -/
def glLines : List (GLTVector3 α) → List (GLTVector3 α × GLTVector3 α)
  | a :: b :: rest => (a, b) :: glLines rest
  | _ => []

/-- The ground grid as the specification lists it: for each of the `count`
integers from `first` on, in increasing order, the segment from
`(i, -0.4, 20)` to `(i, -0.4, -20)` followed by the segment from
`(20, -0.4, i)` to `(-20, -0.4, i)`. -/
def groundGridSpec (first : Int) (count : Nat) : List (GLTVector3 α × GLTVector3 α) :=
  (List.range count).flatMap fun k =>
    [((![((first + k : Int) : α), -(4 / 10), 20] : GLTVector3 α),
        (![((first + k : Int) : α), -(4 / 10), -20] : GLTVector3 α)),
      ((![20, -(4 / 10), ((first + k : Int) : α)] : GLTVector3 α),
        (![-20, -(4 / 10), ((first + k : Int) : α)] : GLTVector3 α))]

end Drawing

section Float32

/-- A finite binary32 (`GLfloat`) value `mant * 2 ^ exp`, kept in the form
with `2 ^ 23 ≤ |mant| < 2 ^ 24`, or `mant = 0` and `exp = 0`.  The exponent is
not bounded: overflow and subnormal numbers are not modelled, so the
operations below are those of IEEE 754 binary32 whenever operands and result
lie in its normal range. -/
structure Binary32 where
  mant : Int
  exp : Int
  deriving DecidableEq, Repr

/-- The number of binary digits of `n`, computed with `fuel` halvings. -/
def bitLength : Nat → Nat → Nat
  | 0, _ => 0
  | fuel + 1, n => if n = 0 then 0 else bitLength fuel (n / 2) + 1

/-- The exact value `m * 2 ^ e` rounded to 24 significant binary digits, to
nearest with ties to the even significand (the default IEEE 754 rounding). -/
def Binary32.round (m e : Int) : Binary32 :=
  if m = 0 then ⟨0, 0⟩
  else
    let n := m.natAbs
    let k := bitLength n n
    if k ≤ 24 then
      ⟨m * 2 ^ (24 - k), e - ((24 - k : Nat) : Int)⟩
    else
      let shift := k - 24
      let q := n / 2 ^ shift
      let r := n % 2 ^ shift
      let half := 2 ^ (shift - 1)
      let q := if half < r ∨ (r = half ∧ q % 2 = 1) then q + 1 else q
      if q = 2 ^ 24 then ⟨m.sign * 2 ^ 23, e + (shift : Int) + 1⟩
      else ⟨m.sign * (q : Int), e + (shift : Int)⟩

/-- The binary32 value `0.0f`. -/
instance : Zero Binary32 := ⟨⟨0, 0⟩⟩

/-- The binary32 value `1.0f`, `2 ^ 23 * 2 ^ (-23)`. -/
instance : One Binary32 := ⟨⟨8388608, -23⟩⟩

/-- The binary32 negation, which is exact. -/
instance : Neg Binary32 := ⟨fun a => ⟨-a.mant, a.exp⟩⟩

/-- The binary32 addition: the exact sum, rounded once. -/
instance : Add Binary32 :=
  ⟨fun a b =>
    let e := min a.exp b.exp
    Binary32.round (a.mant * 2 ^ (a.exp - e).toNat + b.mant * 2 ^ (b.exp - e).toNat) e⟩

/-- The binary32 multiplication: the exact product, rounded once. -/
instance : Mul Binary32 := ⟨fun a b => Binary32.round (a.mant * b.mant) (a.exp + b.exp)⟩

/-- The rational number a binary32 value stands for. -/
def Binary32.toRat (a : Binary32) : ℚ := (a.mant : ℚ) * (2 : ℚ) ^ a.exp

/-- The literal `0.1f` of `Scene::keyPressEvent`: the binary32 value nearest to
one tenth, `13421773 * 2 ^ (-27)`. -/
def tenth32 : Binary32 := ⟨13421773, -27⟩

end Float32

section Index

variable {α : Type}

/-- Entry `5` of a sixteen element array literal. -/
@[simp]
theorem vec16_val_5 (a0 a1 a2 a3 a4 a5 a6 a7 a8 a9 a10 a11 a12 a13 a14 a15 : α) :
    (![a0, a1, a2, a3, a4, a5, a6, a7, a8, a9, a10, a11, a12, a13, a14, a15] : Fin 16 → α) 5 = a5 := rfl

/-- Entry `6` of a sixteen element array literal. -/
@[simp]
theorem vec16_val_6 (a0 a1 a2 a3 a4 a5 a6 a7 a8 a9 a10 a11 a12 a13 a14 a15 : α) :
    (![a0, a1, a2, a3, a4, a5, a6, a7, a8, a9, a10, a11, a12, a13, a14, a15] : Fin 16 → α) 6 = a6 := rfl

/-- Entry `7` of a sixteen element array literal. -/
@[simp]
theorem vec16_val_7 (a0 a1 a2 a3 a4 a5 a6 a7 a8 a9 a10 a11 a12 a13 a14 a15 : α) :
    (![a0, a1, a2, a3, a4, a5, a6, a7, a8, a9, a10, a11, a12, a13, a14, a15] : Fin 16 → α) 7 = a7 := rfl

/-- Entry `8` of a sixteen element array literal. -/
@[simp]
theorem vec16_val_8 (a0 a1 a2 a3 a4 a5 a6 a7 a8 a9 a10 a11 a12 a13 a14 a15 : α) :
    (![a0, a1, a2, a3, a4, a5, a6, a7, a8, a9, a10, a11, a12, a13, a14, a15] : Fin 16 → α) 8 = a8 := rfl

/-- Entry `9` of a sixteen element array literal. -/
@[simp]
theorem vec16_val_9 (a0 a1 a2 a3 a4 a5 a6 a7 a8 a9 a10 a11 a12 a13 a14 a15 : α) :
    (![a0, a1, a2, a3, a4, a5, a6, a7, a8, a9, a10, a11, a12, a13, a14, a15] : Fin 16 → α) 9 = a9 := rfl

/-- Entry `10` of a sixteen element array literal. -/
@[simp]
theorem vec16_val_10 (a0 a1 a2 a3 a4 a5 a6 a7 a8 a9 a10 a11 a12 a13 a14 a15 : α) :
    (![a0, a1, a2, a3, a4, a5, a6, a7, a8, a9, a10, a11, a12, a13, a14, a15] : Fin 16 → α) 10 = a10 := rfl

/-- Entry `11` of a sixteen element array literal. -/
@[simp]
theorem vec16_val_11 (a0 a1 a2 a3 a4 a5 a6 a7 a8 a9 a10 a11 a12 a13 a14 a15 : α) :
    (![a0, a1, a2, a3, a4, a5, a6, a7, a8, a9, a10, a11, a12, a13, a14, a15] : Fin 16 → α) 11 = a11 := rfl

/-- Entry `12` of a sixteen element array literal. -/
@[simp]
theorem vec16_val_12 (a0 a1 a2 a3 a4 a5 a6 a7 a8 a9 a10 a11 a12 a13 a14 a15 : α) :
    (![a0, a1, a2, a3, a4, a5, a6, a7, a8, a9, a10, a11, a12, a13, a14, a15] : Fin 16 → α) 12 = a12 := rfl

/-- Entry `13` of a sixteen element array literal. -/
@[simp]
theorem vec16_val_13 (a0 a1 a2 a3 a4 a5 a6 a7 a8 a9 a10 a11 a12 a13 a14 a15 : α) :
    (![a0, a1, a2, a3, a4, a5, a6, a7, a8, a9, a10, a11, a12, a13, a14, a15] : Fin 16 → α) 13 = a13 := rfl

/-- Entry `14` of a sixteen element array literal. -/
@[simp]
theorem vec16_val_14 (a0 a1 a2 a3 a4 a5 a6 a7 a8 a9 a10 a11 a12 a13 a14 a15 : α) :
    (![a0, a1, a2, a3, a4, a5, a6, a7, a8, a9, a10, a11, a12, a13, a14, a15] : Fin 16 → α) 14 = a14 := rfl

/-- Entry `15` of a sixteen element array literal. -/
@[simp]
theorem vec16_val_15 (a0 a1 a2 a3 a4 a5 a6 a7 a8 a9 a10 a11 a12 a13 a14 a15 : α) :
    (![a0, a1, a2, a3, a4, a5, a6, a7, a8, a9, a10, a11, a12, a13, a14, a15] : Fin 16 → α) 15 = a15 := rfl

end Index

section Lemmas

open Real

/-- On every frame the new forward is the old forward rotated by the matrix of
the second `gltRotationMatrix` call, whose angle argument is `fAngle` itself. -/
theorem gltRotateFrameLocalY_vForward {α : Type} [Field α] [DecidableEq α]
    (sqrt sin cos : α → α) (pFrame : GLTFrame α) (fAngle : α) :
    (gltRotateFrameLocalY sqrt sin cos pFrame fAngle).vForward =
      gltRotateVector pFrame.vForward
        (gltRotationMatrix sqrt sin cos fAngle (pFrame.vUp 0) (pFrame.vUp 1) (pFrame.vUp 2)) :=
  rfl

/-- The rotation matrix about the axis `(0, 1, 0)`. -/
theorem gltRotationMatrix_axisY (a : ℝ) :
    gltRotationMatrix Real.sqrt Real.sin Real.cos a 0 1 0 =
      ![cos a, 0, -sin a, 0,
        0, 1, 0, 0,
        sin a, 0, cos a, 0,
        0, 0, 0, 1] := by
  simp [gltRotationMatrix]

/-- Rotating the direction `(-sin p, 0, -cos p)` about `(0, 1, 0)` by the angle
argument `a` gives `(-sin (p + a), 0, -cos (p + a))`. -/
theorem gltRotateVector_axisY (p a : ℝ) :
    gltRotateVector ![-sin p, 0, -cos p] (gltRotationMatrix Real.sqrt Real.sin Real.cos a 0 1 0) =
      ![-sin (p + a), 0, -cos (p + a)] := by
  rw [gltRotationMatrix_axisY]
  simp only [gltRotateVector, sin_add, cos_add]
  funext i
  fin_cases i <;> simp <;> ring

/-- A yaw of a frame whose up is `(0, 1, 0)` and whose forward is
`(-sin p, 0, -cos p)` adds the angle argument to `p`. -/
theorem gltRotateFrameLocalY_axisY (loc : GLTVector3 ℝ) (p a : ℝ) :
    gltRotateFrameLocalY Real.sqrt Real.sin Real.cos
        ⟨loc, ![0, 1, 0], ![-sin p, 0, -cos p]⟩ a =
      ⟨loc, ![0, 1, 0], ![-sin (p + a), 0, -cos (p + a)]⟩ := by
  have h := gltRotateVector_axisY p a
  simp only [gltRotateFrameLocalY]
  simpa using h

/-- The initial forward `(0, 0, -1)` is `(-sin 0, 0, -cos 0)`. -/
theorem gltInitFrame_eq :
    (gltInitFrame : GLTFrame ℝ) = ⟨![0, 0, 0], ![0, 1, 0], ![-sin 0, 0, -cos 0]⟩ := by
  simp [gltInitFrame]

/-- The sine of `360` radians is not zero: `360` lies strictly between
`114 * π` and `115 * π`. -/
theorem sin_360_ne_zero : sin (360 : ℝ) ≠ 0 := by
  intro h
  obtain ⟨n, hn⟩ := Real.sin_eq_zero_iff.mp h
  have h1 := Real.pi_gt_d2
  have h2 := Real.pi_lt_d2
  have hpos := Real.pi_pos
  rcases le_or_lt n 114 with hle | hgt
  · have : (n : ℝ) ≤ 114 := by exact_mod_cast hle
    nlinarith
  · have : (115 : ℝ) ≤ n := by exact_mod_cast hgt
    nlinarith

/-- The sines of a tenth of a radian and of a tenth of a degree differ. -/
theorem sin_tenth_ne : sin (1 / 10 : ℝ) ≠ sin (1 / 10 * π / 180) := by
  have h1 := Real.pi_gt_d2
  have h2 := Real.pi_lt_d2
  have hlt : (1 / 10 * π / 180 : ℝ) < 1 / 10 := by linarith
  have := Real.sin_lt_sin_of_lt_of_le_pi_div_two (by linarith) (by linarith) hlt
  exact (ne_of_lt this).symm

/-- A vector other than `(0, 0, 0)` has a positive squared length. -/
theorem sq_sum_pos {x y z : ℝ} (h : ¬(x = 0 ∧ y = 0 ∧ z = 0)) :
    0 < x * x + y * y + z * z := by
  by_contra hle
  have hx := mul_self_nonneg x
  have hy := mul_self_nonneg y
  have hz := mul_self_nonneg z
  have hx0 : x * x = 0 := by linarith
  have hy0 : y * y = 0 := by linarith
  have hz0 : z * z = 0 := by linarith
  exact h ⟨mul_self_eq_zero.mp hx0, mul_self_eq_zero.mp hy0, mul_self_eq_zero.mp hz0⟩

/-- Converting an integer valued real to `int` gives that integer. -/
theorem truncToInt_intCast (i : Int) : truncToInt ((i : ℝ)) = i := by
  unfold truncToInt
  split_ifs <;> simp

/-- The update `iLine += fStep` with `fStep = 1` adds one to `iLine`. -/
theorem truncToInt_intCast_add_one (i : Int) : truncToInt ((i : ℝ) + 1) = i + 1 := by
  have h : ((i : ℝ) + 1) = ((i + 1 : Int) : ℝ) := by push_cast; ring
  rw [h, truncToInt_intCast]

/-- The grid of `n + 1` integers is the two segments of the first integer
followed by the grid of the `n` integers after it. -/
theorem groundGridSpec_succ (first : Int) (n : Nat) :
    (groundGridSpec first (n + 1) : List (GLTVector3 ℝ × GLTVector3 ℝ)) =
      [((![(first : ℝ), -(4 / 10), 20] : GLTVector3 ℝ),
          (![(first : ℝ), -(4 / 10), -20] : GLTVector3 ℝ)),
        ((![20, -(4 / 10), (first : ℝ)] : GLTVector3 ℝ),
          (![-20, -(4 / 10), (first : ℝ)] : GLTVector3 ℝ))] ++
        groundGridSpec (first + 1) n := by
  simp only [groundGridSpec, List.range_succ_eq_map, List.flatMap_cons, List.flatMap_map]
  simp [Function.comp_def, add_assoc, add_comm (1 : ℤ)]

/-- The grid of `n` integers has `2 * n` segments. -/
theorem groundGridSpec_length (n : Nat) :
    ∀ first : Int,
      (groundGridSpec first n : List (GLTVector3 ℝ × GLTVector3 ℝ)).length = 2 * n := by
  induction n with
  | zero => intro first; simp [groundGridSpec]
  | succ n ih =>
    intro first
    rw [groundGridSpec_succ, List.length_append, ih]
    simp
    omega

/-- With `n` iterations left before `iLine` exceeds `20` and more than `n` units
of fuel, the loop of `drawGround` returns, having appended `4 * n` vertices
that pair into the grid of the `n` integers from `iLine` on. -/
theorem drawGroundLoop_run :
    ∀ (n fuel : Nat) (iLine : Int) (emitted : List (GLTVector3 ℝ)),
      iLine + n = 21 → n < fuel →
      ∃ vs, drawGroundLoop 20 1 (-(4 / 10)) fuel iLine emitted = some (emitted ++ vs) ∧
        vs.length = 4 * n ∧ glLines vs = groundGridSpec iLine n := by
  intro n
  induction n with
  | zero =>
    intro fuel iLine emitted h hf
    obtain ⟨f, rfl⟩ := Nat.exists_eq_succ_of_ne_zero (Nat.pos_iff_ne_zero.mp hf)
    have hi : iLine = 21 := by simpa using h
    subst hi
    refine ⟨[], ?_, rfl, ?_⟩
    · simp [drawGroundLoop]
      norm_num
    · simp [glLines, groundGridSpec]
  | succ n ih =>
    intro fuel iLine emitted h hf
    obtain ⟨f, rfl⟩ := Nat.exists_eq_succ_of_ne_zero (Nat.pos_iff_ne_zero.mp (Nat.zero_lt_of_lt hf))
    have hle : iLine ≤ 20 := by push_cast at h; omega
    have hcond : (iLine : ℝ) ≤ 20 := by exact_mod_cast hle
    obtain ⟨vs, hrun, hlen, hseg⟩ :=
      ih f (iLine + 1)
        (emitted ++
          [![(iLine : ℝ), -(4 / 10), 20], ![(iLine : ℝ), -(4 / 10), -20],
            ![20, -(4 / 10), (iLine : ℝ)], ![-20, -(4 / 10), (iLine : ℝ)]])
        (by push_cast at h ⊢; omega) (by omega)
    refine ⟨[![(iLine : ℝ), -(4 / 10), 20], ![(iLine : ℝ), -(4 / 10), -20],
            ![20, -(4 / 10), (iLine : ℝ)], ![-20, -(4 / 10), (iLine : ℝ)]] ++ vs, ?_, ?_, ?_⟩
    · rw [drawGroundLoop, if_pos hcond, truncToInt_intCast_add_one, hrun, List.append_assoc]
    · simp [hlen]; omega
    · rw [groundGridSpec_succ, ← hseg]
      simp [glLines]

/-- On an axis other than `(0, 0, 0)`, `gltRotationMatrix` returns the sixteen
assignments of its non-guard path on the axis divided by its length. -/
theorem gltRotationMatrix_of_ne (angle x y z : ℝ) (hAxis : ¬(x = 0 ∧ y = 0 ∧ z = 0)) :
    gltRotationMatrix Real.sqrt Real.sin Real.cos angle x y z =
      axisAngleMatrix (sin angle) (cos angle)
        (x / √(x * x + y * y + z * z)) (y / √(x * x + y * y + z * z))
        (z / √(x * x + y * y + z * z)) := by
  rw [gltRotationMatrix, if_neg hAxis]
  rfl

/-- The length of an axis other than `(0, 0, 0)` is not zero. -/
theorem vecLength_ne_zero {x y z : ℝ} (hAxis : ¬(x = 0 ∧ y = 0 ∧ z = 0)) :
    √(x * x + y * y + z * z) ≠ 0 :=
  (Real.sqrt_pos.mpr (sq_sum_pos hAxis)).ne'

/-- An axis other than `(0, 0, 0)`, divided by its length, has unit length. -/
theorem normalised_axis_unit {x y z : ℝ} (hAxis : ¬(x = 0 ∧ y = 0 ∧ z = 0)) :
    (x / √(x * x + y * y + z * z)) * (x / √(x * x + y * y + z * z)) +
        (y / √(x * x + y * y + z * z)) * (y / √(x * x + y * y + z * z)) +
        (z / √(x * x + y * y + z * z)) * (z / √(x * x + y * y + z * z)) = 1 := by
  have hlen := vecLength_ne_zero hAxis
  have hsq : √(x * x + y * y + z * z) * √(x * x + y * y + z * z) = x * x + y * y + z * z :=
    Real.mul_self_sqrt (sq_sum_pos hAxis).le
  rw [div_mul_div_comm, div_mul_div_comm, div_mul_div_comm, ← add_div, ← add_div, hsq]
  exact div_self (sq_sum_pos hAxis).ne'

/-- For a unit axis and `s * s + c * c = 1`, the matrix of the non-guard path
preserves the scalar product. -/
theorem axisAngleMatrix_dot3 (s c x y z : ℝ) (hUnit : x * x + y * y + z * z = 1)
    (hTrig : s * s + c * c = 1) (u v : GLTVector3 ℝ) :
    dot3 (gltRotateVector u (axisAngleMatrix s c x y z))
        (gltRotateVector v (axisAngleMatrix s c x y z)) = dot3 u v := by
  simp only [dot3, gltRotateVector, axisAngleMatrix]
  simp
  linear_combination
    (s * s * (u 0 * v 0 + u 1 * v 1 + u 2 * v 2) +
        (1 - c) * (1 - c) * (x * u 0 + y * u 1 + z * u 2) * (x * v 0 + y * v 1 + z * v 2)) *
      hUnit +
    ((u 0 * v 0 + u 1 * v 1 + u 2 * v 2) -
        (x * u 0 + y * u 1 + z * u 2) * (x * v 0 + y * v 1 + z * v 2)) * hTrig

/-- For a unit axis, the matrix of the non-guard path fixes every multiple of
the axis. -/
theorem axisAngleMatrix_axis (s c x y z k : ℝ) (hUnit : x * x + y * y + z * z = 1) :
    gltRotateVector ![k * x, k * y, k * z] (axisAngleMatrix s c x y z) =
      ![k * x, k * y, k * z] := by
  simp only [gltRotateVector, axisAngleMatrix]
  funext i
  fin_cases i <;> simp
  · linear_combination ((1 - c) * k * x) * hUnit
  · linear_combination ((1 - c) * k * y) * hUnit
  · linear_combination ((1 - c) * k * z) * hUnit

/-- For a unit axis and `s * s + c * c = 1`, the matrix built with `-s` undoes
the matrix built with `s`. -/
theorem axisAngleMatrix_neg (s c x y z : ℝ) (hUnit : x * x + y * y + z * z = 1)
    (hTrig : s * s + c * c = 1) (v : GLTVector3 ℝ) :
    gltRotateVector (gltRotateVector v (axisAngleMatrix s c x y z))
        (axisAngleMatrix (-s) c x y z) = v := by
  simp only [gltRotateVector, axisAngleMatrix]
  funext i
  fin_cases i <;> simp
  · linear_combination
      (s * s * v 0 + (1 - c) * (1 - c) * x * (x * v 0 + y * v 1 + z * v 2)) * hUnit +
        (v 0 - x * (x * v 0 + y * v 1 + z * v 2)) * hTrig
  · linear_combination
      (s * s * v 1 + (1 - c) * (1 - c) * y * (x * v 0 + y * v 1 + z * v 2)) * hUnit +
        (v 1 - y * (x * v 0 + y * v 1 + z * v 2)) * hTrig
  · linear_combination
      (s * s * v 2 + (1 - c) * (1 - c) * z * (x * v 0 + y * v 1 + z * v 2)) * hUnit +
        (v 2 - z * (x * v 0 + y * v 1 + z * v 2)) * hTrig

/-- On an axis other than `(0, 0, 0)`, rotating two vectors by the matrix of
`gltRotationMatrix` keeps their scalar product. -/
theorem gltRotateVector_rotation_dot3 (angle x y z : ℝ) (hAxis : ¬(x = 0 ∧ y = 0 ∧ z = 0))
    (u v : GLTVector3 ℝ) :
    dot3 (gltRotateVector u (gltRotationMatrix Real.sqrt Real.sin Real.cos angle x y z))
        (gltRotateVector v (gltRotationMatrix Real.sqrt Real.sin Real.cos angle x y z)) =
      dot3 u v := by
  rw [gltRotationMatrix_of_ne angle x y z hAxis]
  exact axisAngleMatrix_dot3 _ _ _ _ _ (normalised_axis_unit hAxis)
    (by have h := Real.sin_sq_add_cos_sq angle; nlinarith [h]) u v

/-- On an axis other than `(0, 0, 0)`, the matrix of `gltRotationMatrix` leaves
the axis where it is. -/
theorem gltRotateVector_rotation_axis (angle x y z : ℝ) (hAxis : ¬(x = 0 ∧ y = 0 ∧ z = 0)) :
    gltRotateVector ![x, y, z] (gltRotationMatrix Real.sqrt Real.sin Real.cos angle x y z) =
      ![x, y, z] := by
  have hlen := vecLength_ne_zero hAxis
  have h := axisAngleMatrix_axis (sin angle) (cos angle)
    (x / √(x * x + y * y + z * z)) (y / √(x * x + y * y + z * z))
    (z / √(x * x + y * y + z * z)) (√(x * x + y * y + z * z)) (normalised_axis_unit hAxis)
  rw [mul_div_cancel₀ x hlen, mul_div_cancel₀ y hlen, mul_div_cancel₀ z hlen] at h
  rw [gltRotationMatrix_of_ne angle x y z hAxis]
  exact h

/-- On every axis, rotating by the matrix of the angle argument `a` and then by
the matrix of `-a` gives back the vector. -/
theorem gltRotateVector_rotation_neg (angle x y z : ℝ) (v : GLTVector3 ℝ) :
    gltRotateVector
        (gltRotateVector v (gltRotationMatrix Real.sqrt Real.sin Real.cos angle x y z))
        (gltRotationMatrix Real.sqrt Real.sin Real.cos (-angle) x y z) = v := by
  by_cases hAxis : x = 0 ∧ y = 0 ∧ z = 0
  · simp only [gltRotationMatrix, if_pos hAxis]
    funext i
    fin_cases i <;> simp [gltRotateVector, gltLoadIdentityMatrix]
  · rw [gltRotationMatrix_of_ne angle x y z hAxis, gltRotationMatrix_of_ne (-angle) x y z hAxis,
      Real.sin_neg, Real.cos_neg]
    exact axisAngleMatrix_neg _ _ _ _ _ (normalised_axis_unit hAxis)
      (by have h := Real.sin_sq_add_cos_sq angle; nlinarith [h]) v

/-- A vector is the array of its three components. -/
theorem vec3_eta (v : GLTVector3 ℝ) : ![v 0, v 1, v 2] = v := by
  funext i
  fin_cases i <;> rfl

/-- The frame of `gltInitFrame` satisfies the frame invariant. -/
theorem isOrthonormalFrame_init : isOrthonormalFrame (gltInitFrame : GLTFrame ℝ) := by
  simp [isOrthonormalFrame, dot3, gltInitFrame]

/-- The mutator `gltMoveFrameForward` preserves the frame invariant. -/
theorem isOrthonormalFrame_move (pFrame : GLTFrame ℝ) (fStep : ℝ)
    (h : isOrthonormalFrame pFrame) : isOrthonormalFrame (gltMoveFrameForward pFrame fStep) :=
  h

/-- The mutator `gltRotateFrameLocalY` preserves the frame invariant, whatever
the angle argument. -/
theorem isOrthonormalFrame_rotate (pFrame : GLTFrame ℝ) (fAngle : ℝ)
    (h : isOrthonormalFrame pFrame) :
    isOrthonormalFrame (gltRotateFrameLocalY Real.sqrt Real.sin Real.cos pFrame fAngle) := by
  obtain ⟨hUp, hForward, hOrth⟩ := h
  have hAxis : ¬(pFrame.vUp 0 = 0 ∧ pFrame.vUp 1 = 0 ∧ pFrame.vUp 2 = 0) := by
    rintro ⟨h0, h1, h2⟩
    simp [dot3, h0, h1, h2] at hUp
  have hfix := gltRotateVector_rotation_axis fAngle _ _ _ hAxis
  rw [vec3_eta] at hfix
  refine ⟨hUp, ?_, ?_⟩
  · rw [gltRotateFrameLocalY_vForward, gltRotateVector_rotation_dot3 fAngle _ _ _ hAxis]
    exact hForward
  · rw [gltRotateFrameLocalY_vForward]
    show dot3 pFrame.vUp _ = 0
    nth_rewrite 1 [← hfix]
    rw [gltRotateVector_rotation_dot3 fAngle _ _ _ hAxis]
    exact hOrth

/-- Every finite sequence of mutator calls preserves the frame invariant. -/
theorem isOrthonormalFrame_runFrameOps (ops : List (FrameOp ℝ)) :
    ∀ pFrame : GLTFrame ℝ, isOrthonormalFrame pFrame →
      isOrthonormalFrame (runFrameOps Real.sqrt Real.sin Real.cos ops pFrame) := by
  induction ops with
  | nil => intro pFrame h; exact h
  | cons op rest ih =>
    intro pFrame h
    simp only [runFrameOps, List.foldl_cons]
    apply ih
    cases op with
    | move fStep => exact isOrthonormalFrame_move pFrame fStep h
    | rotate fAngle => exact isOrthonormalFrame_rotate pFrame fAngle h

/-- The value of `tenth32` is within less than half a unit in the last place
(`2 ^ (-28)`) of one tenth, so it is the binary32 value nearest to `0.1`. -/
theorem tenth32_nearest : |Binary32.toRat tenth32 - 1 / 10| < (2 : ℚ) ^ (-28 : Int) := by
  simp only [Binary32.toRat, tenth32]
  rw [abs_lt]
  constructor <;> norm_num [zpow_neg]

end Lemmas

section Claims

open Real

/-- C1: at the frame of `gltInitFrame` and the angle `0.1` of the left key,
`gltRotateFrameLocalY` leaves forward at `(-sin 0.1, 0, -cos 0.1)`, the rotation
by `0.1` radians, whereas the rotation by the angle converted to radians,
`gltRotateVector(old forward, gltRotationMatrix(0.1 * pi / 180, up))`, is
`(-sin (0.1 * pi / 180), 0, -cos (0.1 * pi / 180))`; the two differ, so the new
forward is not the one the claim describes. -/
theorem C1_forward_rotated_by_unconverted_angle :
    (gltRotateFrameLocalY Real.sqrt Real.sin Real.cos gltInitFrame (1 / 10)).vForward =
        ![-sin (1 / 10), 0, -cos (1 / 10)] ∧
      gltRotateVector (gltInitFrame : GLTFrame ℝ).vForward
          (gltRotationMatrix Real.sqrt Real.sin Real.cos (1 / 10 * π / 180)
            ((gltInitFrame : GLTFrame ℝ).vUp 0) ((gltInitFrame : GLTFrame ℝ).vUp 1)
            ((gltInitFrame : GLTFrame ℝ).vUp 2)) =
        ![-sin (1 / 10 * π / 180), 0, -cos (1 / 10 * π / 180)] ∧
      (gltRotateFrameLocalY Real.sqrt Real.sin Real.cos gltInitFrame (1 / 10)).vForward ≠
        gltRotateVector (gltInitFrame : GLTFrame ℝ).vForward
          (gltRotationMatrix Real.sqrt Real.sin Real.cos (1 / 10 * π / 180)
            ((gltInitFrame : GLTFrame ℝ).vUp 0) ((gltInitFrame : GLTFrame ℝ).vUp 1)
            ((gltInitFrame : GLTFrame ℝ).vUp 2)) := by
  have hcode :
      (gltRotateFrameLocalY Real.sqrt Real.sin Real.cos gltInitFrame (1 / 10)).vForward =
        ![-sin (1 / 10), 0, -cos (1 / 10)] := by
    rw [gltInitFrame_eq, gltRotateFrameLocalY_axisY]
    simp
  have hclaim :
      gltRotateVector (gltInitFrame : GLTFrame ℝ).vForward
          (gltRotationMatrix Real.sqrt Real.sin Real.cos (1 / 10 * π / 180)
            ((gltInitFrame : GLTFrame ℝ).vUp 0) ((gltInitFrame : GLTFrame ℝ).vUp 1)
            ((gltInitFrame : GLTFrame ℝ).vUp 2)) =
        ![-sin (1 / 10 * π / 180), 0, -cos (1 / 10 * π / 180)] := by
    have h := gltRotateVector_axisY 0 (1 / 10 * π / 180)
    simpa [gltInitFrame] using h
  refine ⟨hcode, hclaim, ?_⟩
  rw [hcode, hclaim]
  intro h
  have h0 := congrFun h 0
  simp only [Matrix.cons_val_zero, neg_inj] at h0
  exact sin_tenth_ne h0

/-- C2: starting from the frame of `gltInitFrame`, whose up is `(0, 1, 0)`, four
calls of `gltRotateFrameLocalY` with the angle `90` leave forward at
`(-sin 360, 0, -cos 360)`, four rotations by `90` radians, which is not the
original forward `(0, 0, -1)`. -/
theorem C2_four_calls_of_90_do_not_restore_forward :
    (gltRotateFrameLocalY Real.sqrt Real.sin Real.cos
        (gltRotateFrameLocalY Real.sqrt Real.sin Real.cos
          (gltRotateFrameLocalY Real.sqrt Real.sin Real.cos
            (gltRotateFrameLocalY Real.sqrt Real.sin Real.cos gltInitFrame 90) 90) 90)
        90).vForward = ![-sin 360, 0, -cos 360] ∧
      (gltRotateFrameLocalY Real.sqrt Real.sin Real.cos
        (gltRotateFrameLocalY Real.sqrt Real.sin Real.cos
          (gltRotateFrameLocalY Real.sqrt Real.sin Real.cos
            (gltRotateFrameLocalY Real.sqrt Real.sin Real.cos gltInitFrame 90) 90) 90)
        90).vForward ≠ (gltInitFrame : GLTFrame ℝ).vForward := by
  have hcode :
      (gltRotateFrameLocalY Real.sqrt Real.sin Real.cos
        (gltRotateFrameLocalY Real.sqrt Real.sin Real.cos
          (gltRotateFrameLocalY Real.sqrt Real.sin Real.cos
            (gltRotateFrameLocalY Real.sqrt Real.sin Real.cos gltInitFrame 90) 90) 90)
        90).vForward = ![-sin 360, 0, -cos 360] := by
    rw [gltInitFrame_eq]
    simp only [gltRotateFrameLocalY_axisY]
    norm_num
  refine ⟨hcode, ?_⟩
  rw [hcode]
  intro h
  have h0 := congrFun h 0
  simp [gltInitFrame] at h0
  exact sin_360_ne_zero h0

/-- C3: from the frame of `gltInitFrame`, one up key (`gltMoveFrameForward` by
`0.1`) and then one left key (`gltRotateFrameLocalY` by `0.1`) leave location at
`(0, 0, -0.1)` as claimed, but forward at `(-sin 0.1, 0, -cos 0.1)`, which is
not the claimed `(-sin (0.1 * pi / 180), 0, -cos (0.1 * pi / 180))`. -/
theorem C3_key_up_then_key_left :
    (keyPressEvent Real.sqrt Real.sin Real.cos
        (keyPressEvent Real.sqrt Real.sin Real.cos gltInitFrame Key.Key_Up) Key.Key_Left) =
      gltRotateFrameLocalY Real.sqrt Real.sin Real.cos
        (gltMoveFrameForward gltInitFrame (1 / 10)) (1 / 10) ∧
    (gltRotateFrameLocalY Real.sqrt Real.sin Real.cos
        (gltMoveFrameForward gltInitFrame (1 / 10)) (1 / 10)).vLocation =
      ![0, 0, -(1 / 10)] ∧
    (gltRotateFrameLocalY Real.sqrt Real.sin Real.cos
        (gltMoveFrameForward gltInitFrame (1 / 10)) (1 / 10)).vForward =
      ![-sin (1 / 10), 0, -cos (1 / 10)] ∧
    (gltRotateFrameLocalY Real.sqrt Real.sin Real.cos
        (gltMoveFrameForward gltInitFrame (1 / 10)) (1 / 10)).vForward ≠
      ![-sin (1 / 10 * π / 180), 0, -cos (1 / 10 * π / 180)] := by
  have hmove : gltMoveFrameForward (gltInitFrame : GLTFrame ℝ) (1 / 10) =
      ⟨![0, 0, -(1 / 10)], ![0, 1, 0], ![-sin 0, 0, -cos 0]⟩ := by
    simp [gltMoveFrameForward, gltInitFrame]
  have hfwd :
      (gltRotateFrameLocalY Real.sqrt Real.sin Real.cos
        (gltMoveFrameForward gltInitFrame (1 / 10)) (1 / 10)).vForward =
      ![-sin (1 / 10), 0, -cos (1 / 10)] := by
    rw [hmove, gltRotateFrameLocalY_axisY]
    simp
  refine ⟨rfl, ?_, hfwd, ?_⟩
  · rw [hmove, gltRotateFrameLocalY_axisY]
  · rw [hfwd]
    intro h
    have h0 := congrFun h 0
    simp only [Matrix.cons_val_zero, neg_inj] at h0
    exact sin_tenth_ne h0

/-- C4: for every angle and every axis other than `(0, 0, 0)`, the matrix of
`gltRotationMatrix` holds at index `4 * col + row` the entry `R[row][col]` of
the Rodrigues matrix of the normalised axis `(x, y, z) / sqrt (x*x + y*y + z*z)`,
which has unit length; its translation column (indices 12, 13, 14) is zero and
its last row (indices 3, 7, 11, 15) is `(0, 0, 0, 1)`. -/
theorem C4_rotation_matrix_is_rodrigues (angle x y z : ℝ)
    (hAxis : ¬(x = 0 ∧ y = 0 ∧ z = 0)) :
    (x / √(x * x + y * y + z * z)) * (x / √(x * x + y * y + z * z)) +
        (y / √(x * x + y * y + z * z)) * (y / √(x * x + y * y + z * z)) +
        (z / √(x * x + y * y + z * z)) * (z / √(x * x + y * y + z * z)) = 1 ∧
      (∀ row col : Fin 3,
        gltRotationMatrix Real.sqrt Real.sin Real.cos angle x y z
            ⟨4 * col.val + row.val, by omega⟩ =
          rodriguesSpec (sin angle) (cos angle)
            (x / √(x * x + y * y + z * z)) (y / √(x * x + y * y + z * z))
            (z / √(x * x + y * y + z * z)) row col) ∧
      gltRotationMatrix Real.sqrt Real.sin Real.cos angle x y z 12 = 0 ∧
      gltRotationMatrix Real.sqrt Real.sin Real.cos angle x y z 13 = 0 ∧
      gltRotationMatrix Real.sqrt Real.sin Real.cos angle x y z 14 = 0 ∧
      gltRotationMatrix Real.sqrt Real.sin Real.cos angle x y z 3 = 0 ∧
      gltRotationMatrix Real.sqrt Real.sin Real.cos angle x y z 7 = 0 ∧
      gltRotationMatrix Real.sqrt Real.sin Real.cos angle x y z 11 = 0 ∧
      gltRotationMatrix Real.sqrt Real.sin Real.cos angle x y z 15 = 1 := by
  have hpos : 0 < x * x + y * y + z * z := sq_sum_pos hAxis
  have hlen : √(x * x + y * y + z * z) ≠ 0 := (Real.sqrt_pos.mpr hpos).ne'
  have hsq : √(x * x + y * y + z * z) * √(x * x + y * y + z * z) = x * x + y * y + z * z :=
    Real.mul_self_sqrt hpos.le
  refine ⟨?_, ?_, ?_, ?_, ?_, ?_, ?_, ?_, ?_⟩
  · field_simp
  · intro row col
    simp only [gltRotationMatrix, if_neg hAxis, rodriguesSpec]
    fin_cases row <;> fin_cases col <;> simp <;> ring
  all_goals simp [gltRotationMatrix, if_neg hAxis]

/-- C4 at the angle `0` and the axis `(0, 2, 0)`. -/
theorem C4_rotation_matrix_is_rodrigues_witness :
    ¬((0 : ℝ) = 0 ∧ (2 : ℝ) = 0 ∧ (0 : ℝ) = 0) ∧
      ∀ row col : Fin 3,
        gltRotationMatrix Real.sqrt Real.sin Real.cos 0 0 2 0
            ⟨4 * col.val + row.val, by omega⟩ =
          rodriguesSpec (sin 0) (cos 0)
            (0 / √(0 * 0 + 2 * 2 + 0 * 0)) (2 / √(0 * 0 + 2 * 2 + 0 * 0))
            (0 / √(0 * 0 + 2 * 2 + 0 * 0)) row col :=
  ⟨by norm_num, (C4_rotation_matrix_is_rodrigues 0 0 2 0 (by norm_num)).2.1⟩

/-- C5: for every angle, and whatever `sqrt`, `sin` and `cos` compute,
`gltRotationMatrix(angle, 0, 0, 0)` is exactly the identity matrix, and the
instrumented routine returns it without reporting a division by a zero length:
the guard returns before the normalisation. -/
theorem C5_zero_axis_returns_identity (sqrt sin cos : ℝ → ℝ) (angle : ℝ) :
    gltRotationMatrix sqrt sin cos angle 0 0 0 = gltLoadIdentityMatrix ∧
      gltRotationMatrixChecked sqrt sin cos angle 0 0 0 = some gltLoadIdentityMatrix := by
  simp [gltRotationMatrix, gltRotationMatrixChecked]

/-- C6: for every axis other than `(0, 0, 0)`, `gltRotationMatrix(0, x, y, z)` is
the identity matrix. -/
theorem C6_zero_angle_returns_identity (x y z : ℝ) (hAxis : ¬(x = 0 ∧ y = 0 ∧ z = 0)) :
    gltRotationMatrix Real.sqrt Real.sin Real.cos 0 x y z = gltLoadIdentityMatrix := by
  rw [gltRotationMatrix, if_neg hAxis]
  simp [gltLoadIdentityMatrix]

/-- C6 at the axis `(3, 0, 4)`. -/
theorem C6_zero_angle_returns_identity_witness :
    ¬((3 : ℝ) = 0 ∧ (0 : ℝ) = 0 ∧ (4 : ℝ) = 0) ∧
      gltRotationMatrix Real.sqrt Real.sin Real.cos 0 3 0 4 = gltLoadIdentityMatrix :=
  ⟨by norm_num, C6_zero_angle_returns_identity 3 0 4 (by norm_num)⟩

/-- C7: `gltRotateVector` applied to `(0, 0, -1)` and the matrix
`gltRotationMatrix(pi/2, 0, 1, 0)` yields `(-1, 0, 0)`. -/
theorem C7_quarter_turn_about_Y_sign :
    gltRotateVector ![0, 0, -1] (gltRotationMatrix Real.sqrt Real.sin Real.cos (π / 2) 0 1 0) =
      ![-1, 0, 0] := by
  rw [gltRotationMatrix_axisY]
  simp [gltRotateVector]

/-- C8: for every frame whose up and forward are unit length and mutually
orthogonal, the matrix `gltApplyCameraTransform` builds on the identity current
matrix sends every world point `p` to
`(right . (p - location), up . (p - location), -forward . (p - location))` (and
`w = 1`), where `right` is the viewer's right-hand vector `forward x up`
written out by components; `right` is what `cross(up, -forward)` computes, it
has unit length and is orthogonal to up and forward. The transform sends
location to the origin, `location + right` to `(1, 0, 0)`, `location + up` to
`(0, 1, 0)` and `location + forward` to `(0, 0, -1)`. -/
theorem C8_camera_transform_is_look_from (pCamera : GLTFrame ℝ)
    (hUp : dot3 pCamera.vUp pCamera.vUp = 1)
    (hForward : dot3 pCamera.vForward pCamera.vForward = 1)
    (hOrth : dot3 pCamera.vUp pCamera.vForward = 0) :
    (∀ p : GLTVector3 ℝ,
        glTransformVertex (gltApplyCameraTransform gltLoadIdentityMatrix pCamera) p =
          ![dot3 (viewerRight pCamera.vUp pCamera.vForward) (p - pCamera.vLocation),
            dot3 pCamera.vUp (p - pCamera.vLocation),
            -dot3 pCamera.vForward (p - pCamera.vLocation),
            1]) ∧
      gltVectorCrossProduct pCamera.vUp (-pCamera.vForward) =
        viewerRight pCamera.vUp pCamera.vForward ∧
      dot3 (viewerRight pCamera.vUp pCamera.vForward)
        (viewerRight pCamera.vUp pCamera.vForward) = 1 ∧
      dot3 (viewerRight pCamera.vUp pCamera.vForward) pCamera.vUp = 0 ∧
      dot3 (viewerRight pCamera.vUp pCamera.vForward) pCamera.vForward = 0 ∧
      glTransformVertex (gltApplyCameraTransform gltLoadIdentityMatrix pCamera)
          pCamera.vLocation = ![0, 0, 0, 1] ∧
      glTransformVertex (gltApplyCameraTransform gltLoadIdentityMatrix pCamera)
          (pCamera.vLocation + viewerRight pCamera.vUp pCamera.vForward) = ![1, 0, 0, 1] ∧
      glTransformVertex (gltApplyCameraTransform gltLoadIdentityMatrix pCamera)
          (pCamera.vLocation + pCamera.vUp) = ![0, 1, 0, 1] ∧
      glTransformVertex (gltApplyCameraTransform gltLoadIdentityMatrix pCamera)
          (pCamera.vLocation + pCamera.vForward) = ![0, 0, -1, 1] := by
  have hmap : ∀ p : GLTVector3 ℝ,
      glTransformVertex (gltApplyCameraTransform gltLoadIdentityMatrix pCamera) p =
        ![dot3 (viewerRight pCamera.vUp pCamera.vForward) (p - pCamera.vLocation),
          dot3 pCamera.vUp (p - pCamera.vLocation),
          -dot3 pCamera.vForward (p - pCamera.vLocation),
          1] := by
    intro p
    funext i
    fin_cases i <;>
      simp [glTransformVertex, gltApplyCameraTransform, glTranslatef, glMultMatrixf,
        gltLoadIdentityMatrix, gltVectorCrossProduct, viewerRight, dot3] <;>
      ring
  have hcross : gltVectorCrossProduct pCamera.vUp (-pCamera.vForward) =
      viewerRight pCamera.vUp pCamera.vForward := by
    funext i
    fin_cases i <;> simp [gltVectorCrossProduct, viewerRight] <;> ring
  have hFU : dot3 pCamera.vForward pCamera.vUp = 0 := by
    simp only [dot3] at hOrth ⊢
    linear_combination hOrth
  have hRR : dot3 (viewerRight pCamera.vUp pCamera.vForward)
      (viewerRight pCamera.vUp pCamera.vForward) = 1 := by
    simp only [dot3] at hUp hForward hOrth
    simp [dot3, viewerRight]
    linear_combination
      (pCamera.vUp 0 * pCamera.vUp 0 + pCamera.vUp 1 * pCamera.vUp 1 +
          pCamera.vUp 2 * pCamera.vUp 2) * hForward + hUp -
        (pCamera.vUp 0 * pCamera.vForward 0 + pCamera.vUp 1 * pCamera.vForward 1 +
          pCamera.vUp 2 * pCamera.vForward 2) * hOrth
  have hRU : dot3 (viewerRight pCamera.vUp pCamera.vForward) pCamera.vUp = 0 := by
    simp [dot3, viewerRight]
    ring
  have hRF : dot3 (viewerRight pCamera.vUp pCamera.vForward) pCamera.vForward = 0 := by
    simp [dot3, viewerRight]
    ring
  have hUR : dot3 pCamera.vUp (viewerRight pCamera.vUp pCamera.vForward) = 0 := by
    simp [dot3, viewerRight]
    ring
  have hFR : dot3 pCamera.vForward (viewerRight pCamera.vUp pCamera.vForward) = 0 := by
    simp [dot3, viewerRight]
    ring
  have hzero : ∀ u : GLTVector3 ℝ, dot3 u (0 : GLTVector3 ℝ) = 0 := by
    intro u
    simp [dot3]
  refine ⟨hmap, hcross, hRR, hRU, hRF, ?_, ?_, ?_, ?_⟩
  · rw [hmap, sub_self, hzero, hzero, hzero, neg_zero]
  · rw [hmap, add_sub_cancel_left, hRR, hUR, hFR, neg_zero]
  · rw [hmap, add_sub_cancel_left, hRU, hUp, hFU, neg_zero]
  · rw [hmap, add_sub_cancel_left, hRF, hOrth, hForward]

/-- C8 at the frame of `gltInitFrame` moved forward by `2`: location is
`(0, 0, -2)`, up is `(0, 1, 0)`, forward is `(0, 0, -1)`, the right-hand vector
is `(1, 0, 0)`, and the point `(1, 0, -2)` to the right of the viewer is sent
to `(1, 0, 0)`. -/
theorem C8_camera_transform_is_look_from_witness :
    dot3 (gltMoveFrameForward (gltInitFrame : GLTFrame ℝ) 2).vUp
        (gltMoveFrameForward (gltInitFrame : GLTFrame ℝ) 2).vUp = 1 ∧
      dot3 (gltMoveFrameForward (gltInitFrame : GLTFrame ℝ) 2).vForward
        (gltMoveFrameForward (gltInitFrame : GLTFrame ℝ) 2).vForward = 1 ∧
      dot3 (gltMoveFrameForward (gltInitFrame : GLTFrame ℝ) 2).vUp
        (gltMoveFrameForward (gltInitFrame : GLTFrame ℝ) 2).vForward = 0 ∧
      viewerRight (gltMoveFrameForward (gltInitFrame : GLTFrame ℝ) 2).vUp
        (gltMoveFrameForward (gltInitFrame : GLTFrame ℝ) 2).vForward = ![1, 0, 0] ∧
      (gltMoveFrameForward (gltInitFrame : GLTFrame ℝ) 2).vLocation +
        viewerRight (gltMoveFrameForward (gltInitFrame : GLTFrame ℝ) 2).vUp
          (gltMoveFrameForward (gltInitFrame : GLTFrame ℝ) 2).vForward = ![1, 0, -2] ∧
      glTransformVertex
          (gltApplyCameraTransform gltLoadIdentityMatrix
            (gltMoveFrameForward (gltInitFrame : GLTFrame ℝ) 2))
          ((gltMoveFrameForward (gltInitFrame : GLTFrame ℝ) 2).vLocation +
            viewerRight (gltMoveFrameForward (gltInitFrame : GLTFrame ℝ) 2).vUp
              (gltMoveFrameForward (gltInitFrame : GLTFrame ℝ) 2).vForward) =
        ![1, 0, 0, 1] :=
  ⟨by simp [dot3, gltMoveFrameForward, gltInitFrame],
    by simp [dot3, gltMoveFrameForward, gltInitFrame],
    by simp [dot3, gltMoveFrameForward, gltInitFrame],
    by simp [viewerRight, gltMoveFrameForward, gltInitFrame],
    by
      funext i
      fin_cases i <;> simp [viewerRight, gltMoveFrameForward, gltInitFrame],
    (C8_camera_transform_is_look_from (gltMoveFrameForward (gltInitFrame : GLTFrame ℝ) 2)
      (by simp [dot3, gltMoveFrameForward, gltInitFrame])
      (by simp [dot3, gltMoveFrameForward, gltInitFrame])
      (by simp [dot3, gltMoveFrameForward, gltInitFrame])).2.2.2.2.2.2.1⟩

/-- C9: for the frame of `gltInitFrame`, the matrix `gltApplyCameraTransform`
builds on the identity current matrix is the identity matrix. -/
theorem C9_initial_camera_transform_is_identity :
    gltApplyCameraTransform gltLoadIdentityMatrix (gltInitFrame : GLTFrame ℝ) =
      gltLoadIdentityMatrix := by
  funext i
  fin_cases i <;>
    simp [gltApplyCameraTransform, glTranslatef, glMultMatrixf, gltLoadIdentityMatrix,
      gltVectorCrossProduct, gltInitFrame]

/-- C10: for every frame and every step, `gltMoveFrameForward` yields the frame
whose location is, in each component, the old location plus `step` times
forward, and whose up and forward are those of the old frame. -/
theorem C10_move_forward_translates_location (pFrame : GLTFrame ℝ) (fStep : ℝ) :
    (∀ i : Fin 3,
        (gltMoveFrameForward pFrame fStep).vLocation i =
          pFrame.vLocation i + fStep * pFrame.vForward i) ∧
      (gltMoveFrameForward pFrame fStep).vUp = pFrame.vUp ∧
      (gltMoveFrameForward pFrame fStep).vForward = pFrame.vForward := by
  refine ⟨?_, rfl, rfl⟩
  intro i
  fin_cases i <;> simp [gltMoveFrameForward, mul_comm]

/-- C11, as stated, fails in the binary32 arithmetic of `GLfloat`: from the
frame of `gltInitFrame`, two up keys (`gltMoveFrameForward` by `0.1f` twice)
leave the third location component at `-13421773 * 2 ^ (-26)`; a further
`gltMoveFrameForward` by `0.1f` followed by `gltMoveFrameForward` by `-0.1f`
leaves it at `-13421774 * 2 ^ (-26)`, so the location is not restored. -/
theorem C11_binary32_move_forward_then_back_changes_location :
    (gltMoveFrameForward (gltMoveFrameForward (gltInitFrame : GLTFrame Binary32) tenth32)
        tenth32).vLocation 2 = ⟨-13421773, -26⟩ ∧
      (gltMoveFrameForward
          (gltMoveFrameForward
            (gltMoveFrameForward (gltMoveFrameForward (gltInitFrame : GLTFrame Binary32) tenth32)
              tenth32)
            tenth32)
          (-tenth32)).vLocation 2 = ⟨-13421774, -26⟩ ∧
      (gltMoveFrameForward
          (gltMoveFrameForward
            (gltMoveFrameForward (gltMoveFrameForward (gltInitFrame : GLTFrame Binary32) tenth32)
              tenth32)
            tenth32)
          (-tenth32)).vLocation ≠
        (gltMoveFrameForward (gltMoveFrameForward (gltInitFrame : GLTFrame Binary32) tenth32)
          tenth32).vLocation := by
  refine ⟨by decide, by decide, ?_⟩
  intro h
  have h2 := congrFun h 2
  revert h2
  decide

/-- C11, amended: in exact real arithmetic, for every frame and every step `d`,
`gltMoveFrameForward` by `d` followed by `gltMoveFrameForward` by `-d` gives
back the original frame, and in particular the original location. -/
theorem C11_move_forward_then_back_restores (pFrame : GLTFrame ℝ) (d : ℝ) :
    (gltMoveFrameForward (gltMoveFrameForward pFrame d) (-d)).vLocation = pFrame.vLocation ∧
      gltMoveFrameForward (gltMoveFrameForward pFrame d) (-d) = pFrame := by
  have hloc :
      (gltMoveFrameForward (gltMoveFrameForward pFrame d) (-d)).vLocation =
        pFrame.vLocation := by
    funext i
    fin_cases i <;> simp [gltMoveFrameForward]
  refine ⟨hloc, ?_⟩
  cases pFrame
  simp only [gltMoveFrameForward] at hloc ⊢
  rw [hloc]

/-- C12: for every frame and every angle, `gltRotateFrameLocalY` leaves location
and up as they were. -/
theorem C12_rotate_keeps_location_and_up (pFrame : GLTFrame ℝ) (fAngle : ℝ) :
    (gltRotateFrameLocalY Real.sqrt Real.sin Real.cos pFrame fAngle).vLocation =
        pFrame.vLocation ∧
      (gltRotateFrameLocalY Real.sqrt Real.sin Real.cos pFrame fAngle).vUp = pFrame.vUp :=
  ⟨rfl, rfl⟩

/-- C13: `gltInitFrame` establishes the frame invariant (up and forward of unit
length and mutually orthogonal), `gltMoveFrameForward` and
`gltRotateFrameLocalY` preserve it for every step and every angle, and so
every frame reached from `gltInitFrame` by a finite sequence of these calls
satisfies it. -/
theorem C13_reachable_frames_are_orthonormal :
    isOrthonormalFrame (gltInitFrame : GLTFrame ℝ) ∧
      (∀ (pFrame : GLTFrame ℝ) (fStep : ℝ), isOrthonormalFrame pFrame →
        isOrthonormalFrame (gltMoveFrameForward pFrame fStep)) ∧
      (∀ (pFrame : GLTFrame ℝ) (fAngle : ℝ), isOrthonormalFrame pFrame →
        isOrthonormalFrame (gltRotateFrameLocalY Real.sqrt Real.sin Real.cos pFrame fAngle)) ∧
      ∀ ops : List (FrameOp ℝ),
        isOrthonormalFrame (runFrameOps Real.sqrt Real.sin Real.cos ops gltInitFrame) :=
  ⟨isOrthonormalFrame_init, isOrthonormalFrame_move, isOrthonormalFrame_rotate,
    fun ops => isOrthonormalFrame_runFrameOps ops gltInitFrame isOrthonormalFrame_init⟩

/-- C13 at the frame of `gltInitFrame` and the calls: rotate by `90`, move by
`0.1`, rotate by `-7`. -/
theorem C13_reachable_frames_are_orthonormal_witness :
    isOrthonormalFrame (gltInitFrame : GLTFrame ℝ) ∧
      isOrthonormalFrame
        (gltRotateFrameLocalY Real.sqrt Real.sin Real.cos (gltInitFrame : GLTFrame ℝ) 90) ∧
      isOrthonormalFrame
        (runFrameOps Real.sqrt Real.sin Real.cos
          [FrameOp.rotate 90, FrameOp.move (1 / 10), FrameOp.rotate (-7)] gltInitFrame) :=
  ⟨C13_reachable_frames_are_orthonormal.1,
    C13_reachable_frames_are_orthonormal.2.2.1 gltInitFrame 90
      C13_reachable_frames_are_orthonormal.1,
    C13_reachable_frames_are_orthonormal.2.2.2 _⟩

/-- C14: for all vectors `u` and `v`, `gltVectorCrossProduct(u, v)` is the
componentwise negation of `gltVectorCrossProduct(v, u)`. -/
theorem C14_cross_product_anticommutes (u v : GLTVector3 ℝ) :
    gltVectorCrossProduct u v = -gltVectorCrossProduct v u := by
  funext i
  fin_cases i <;> simp [gltVectorCrossProduct]

/-- C15: for every vector `v` and every scalar `k`,
`gltVectorCrossProduct(v, k * v)` is `(0, 0, 0)`, and so is
`gltVectorCrossProduct(v, v)`. -/
theorem C15_cross_product_of_parallel_is_zero (v : GLTVector3 ℝ) (k : ℝ) :
    gltVectorCrossProduct v (k • v) = ![0, 0, 0] ∧
      gltVectorCrossProduct v v = ![0, 0, 0] := by
  constructor
  · funext i
    fin_cases i <;> simp [gltVectorCrossProduct] <;> ring
  · funext i
    fin_cases i <;> simp [gltVectorCrossProduct]

/-- C16: for every vector `v` and all matrices `m`, `m2` that agree at the
indices 0, 1, 2, 4, 5, 6, 8, 9, 10, `gltRotateVector(v, m)` equals
`gltRotateVector(v, m2)`, and component `i` of the result is the sum over `j`
of `m[4*j+i] * v[j]`. -/
theorem C16_rotate_vector_reads_rotation_block (v : GLTVector3 ℝ) (m m2 : GLTMatrix ℝ)
    (h0 : m 0 = m2 0) (h1 : m 1 = m2 1) (h2 : m 2 = m2 2)
    (h4 : m 4 = m2 4) (h5 : m 5 = m2 5) (h6 : m 6 = m2 6)
    (h8 : m 8 = m2 8) (h9 : m 9 = m2 9) (h10 : m 10 = m2 10) :
    gltRotateVector v m = gltRotateVector v m2 ∧
      ∀ i : Fin 3,
        gltRotateVector v m i = ∑ j : Fin 3, m ⟨4 * j.val + i.val, by omega⟩ * v j := by
  constructor
  · simp only [gltRotateVector, h0, h1, h2, h4, h5, h6, h8, h9, h10]
  · intro i
    fin_cases i <;> simp [gltRotateVector, Fin.sum_univ_three]

/-- C16 at the identity matrix and the matrix that differs from it in the
translation column and the last row. -/
theorem C16_rotate_vector_reads_rotation_block_witness :
    gltRotateVector ![1, 2, 3] (gltLoadIdentityMatrix : GLTMatrix ℝ) =
      gltRotateVector ![1, 2, 3]
        ![1, 0, 0, 7,
          0, 1, 0, 8,
          0, 0, 1, 9,
          4, 5, 6, 2] :=
  (C16_rotate_vector_reads_rotation_block ![1, 2, 3] gltLoadIdentityMatrix
    ![1, 0, 0, 7,
      0, 1, 0, 8,
      0, 0, 1, 9,
      4, 5, 6, 2]
    (by simp [gltLoadIdentityMatrix]) (by simp [gltLoadIdentityMatrix])
    (by simp [gltLoadIdentityMatrix]) (by simp [gltLoadIdentityMatrix])
    (by simp [gltLoadIdentityMatrix]) (by simp [gltLoadIdentityMatrix])
    (by simp [gltLoadIdentityMatrix]) (by simp [gltLoadIdentityMatrix])
    (by simp [gltLoadIdentityMatrix])).1

/-- C17: for every width `w` and every height `h` a window can have (`h` is
not negative), the aspect ratio `resizeGL` hands to the perspective projection
is `w / max(h, 1)`, and the viewport gets the clamped height `max(h, 1)`: a
height of `0` is replaced by `1` before the division. -/
theorem C17_aspect_is_width_over_clamped_height (w h : Int) (hHeight : 0 ≤ h) :
    (resizeGL w h : ResizeCalls ℝ).aspect = (w : ℝ) / ((max h 1 : Int) : ℝ) ∧
      (resizeGL w h : ResizeCalls ℝ).viewportHeight = max h 1 ∧
      ((max h 1 : Int) : ℝ) ≠ 0 := by
  have hmax : max h 1 = if h = 0 then 1 else h := by
    split_ifs with h0
    · simp [h0]
    · exact max_eq_left (by omega)
  have hpos : (1 : Int) ≤ max h 1 := le_max_right h 1
  refine ⟨?_, ?_, ?_⟩
  · rw [hmax]
    rfl
  · rw [hmax]
    rfl
  · have : (0 : Int) < max h 1 := by omega
    exact_mod_cast this.ne'

/-- C17 at the width `640` and the height `0`, where the aspect ratio is
`640 / 1`, and at the height `480`, where it is `640 / 480`. -/
theorem C17_aspect_is_width_over_clamped_height_witness :
    ((0 : Int) ≤ 0 ∧ (resizeGL 640 0 : ResizeCalls ℝ).aspect = 640) ∧
      ((0 : Int) ≤ 480 ∧ (resizeGL 640 480 : ResizeCalls ℝ).aspect = 640 / 480) :=
  ⟨⟨le_refl 0, by
      have h := (C17_aspect_is_width_over_clamped_height 640 0 (le_refl 0)).1
      rw [h]
      norm_num⟩,
    ⟨by norm_num, by
      have h := (C17_aspect_is_width_over_clamped_height 640 480 (by norm_num)).1
      rw [h]
      norm_num⟩⟩

/-- C18: with at least 42 units of fuel (one per evaluation of the loop
condition) the loop of `drawGround` terminates, having emitted 164 vertices
that `GL_LINES` pairs into exactly the 82 segments of the ground grid: for each
integer `i` from `-20` to `20`, in increasing order, the segment from
`(i, -0.4, 20)` to `(i, -0.4, -20)` followed by the segment from
`(20, -0.4, i)` to `(-20, -0.4, i)`. -/
theorem C18_drawGround_emits_ground_grid (fuel : Nat) (hFuel : 42 ≤ fuel) :
    ∃ vs : List (GLTVector3 ℝ),
      drawGround fuel = some vs ∧ vs.length = 164 ∧
        glLines vs = groundGridSpec (-20) 41 ∧ (glLines vs).length = 82 := by
  obtain ⟨vs, hrun, hlen, hseg⟩ := drawGroundLoop_run 41 fuel (-20) [] (by norm_num) (by omega)
  refine ⟨vs, ?_, by simpa using hlen, hseg, ?_⟩
  · have h20 : truncToInt (-(20 : ℝ)) = -20 := by
      have := truncToInt_intCast (-20)
      simpa using this
    simp only [drawGround, h20]
    simpa using hrun
  · rw [hseg, groundGridSpec_length]

/-- C18 with 42 units of fuel. -/
theorem C18_drawGround_emits_ground_grid_witness :
    42 ≤ 42 ∧
      ∃ vs : List (GLTVector3 ℝ),
        drawGround 42 = some vs ∧ vs.length = 164 ∧
          glLines vs = groundGridSpec (-20) 41 ∧ (glLines vs).length = 82 :=
  ⟨le_refl 42, C18_drawGround_emits_ground_grid 42 (le_refl 42)⟩

/-- C19: for every angle, every axis other than `(0, 0, 0)` and every vector
`v`, `gltRotateVector(v, gltRotationMatrix(angle, axis))` has the Euclidean
length of `v`, the axis is mapped to itself, and the columns of the 3x3 block
of the matrix are orthonormal (its transpose times itself is the identity). -/
theorem C19_rotation_preserves_length_and_axis (angle x y z : ℝ)
    (hAxis : ¬(x = 0 ∧ y = 0 ∧ z = 0)) :
    (∀ v : GLTVector3 ℝ,
        √(dot3 (gltRotateVector v (gltRotationMatrix Real.sqrt Real.sin Real.cos angle x y z))
            (gltRotateVector v
              (gltRotationMatrix Real.sqrt Real.sin Real.cos angle x y z))) =
          √(dot3 v v)) ∧
      gltRotateVector ![x, y, z] (gltRotationMatrix Real.sqrt Real.sin Real.cos angle x y z) =
        ![x, y, z] ∧
      ∀ i j : Fin 3,
        ∑ k : Fin 3,
            gltRotationMatrix Real.sqrt Real.sin Real.cos angle x y z
                ⟨4 * i.val + k.val, by omega⟩ *
              gltRotationMatrix Real.sqrt Real.sin Real.cos angle x y z
                ⟨4 * j.val + k.val, by omega⟩ =
          if i = j then 1 else 0 := by
  refine ⟨?_, gltRotateVector_rotation_axis angle x y z hAxis, ?_⟩
  · intro v
    rw [gltRotateVector_rotation_dot3 angle x y z hAxis]
  · intro i j
    have h := gltRotateVector_rotation_dot3 angle x y z hAxis (Pi.single i 1) (Pi.single j 1)
    fin_cases i <;> fin_cases j <;>
      simpa [dot3, gltRotateVector, Fin.sum_univ_three] using h

/-- C19 at the angle `1` and the axis `(3, 0, 4)`. -/
theorem C19_rotation_preserves_length_and_axis_witness :
    ¬((3 : ℝ) = 0 ∧ (0 : ℝ) = 0 ∧ (4 : ℝ) = 0) ∧
      gltRotateVector ![3, 0, 4] (gltRotationMatrix Real.sqrt Real.sin Real.cos 1 3 0 4) =
        ![3, 0, 4] :=
  ⟨by norm_num, (C19_rotation_preserves_length_and_axis 1 3 0 4 (by norm_num)).2.1⟩

/-- C20: for every frame and every angle `a`, `gltRotateFrameLocalY` by `a`
followed by `gltRotateFrameLocalY` by `-a` gives back the original forward
and the original frame; a left key press followed by a right key press gives
back the frame. -/
theorem C20_rotate_then_rotate_back_restores (pFrame : GLTFrame ℝ) (a : ℝ) :
    (gltRotateFrameLocalY Real.sqrt Real.sin Real.cos
        (gltRotateFrameLocalY Real.sqrt Real.sin Real.cos pFrame a) (-a)).vForward =
      pFrame.vForward ∧
    gltRotateFrameLocalY Real.sqrt Real.sin Real.cos
        (gltRotateFrameLocalY Real.sqrt Real.sin Real.cos pFrame a) (-a) = pFrame ∧
    keyPressEvent Real.sqrt Real.sin Real.cos
        (keyPressEvent Real.sqrt Real.sin Real.cos pFrame Key.Key_Left) Key.Key_Right =
      pFrame := by
  have hfwd : ∀ b : ℝ,
      (gltRotateFrameLocalY Real.sqrt Real.sin Real.cos
          (gltRotateFrameLocalY Real.sqrt Real.sin Real.cos pFrame b) (-b)).vForward =
        pFrame.vForward := by
    intro b
    rw [gltRotateFrameLocalY_vForward, gltRotateFrameLocalY_vForward]
    exact gltRotateVector_rotation_neg b _ _ _ pFrame.vForward
  have hframe : ∀ b : ℝ,
      gltRotateFrameLocalY Real.sqrt Real.sin Real.cos
          (gltRotateFrameLocalY Real.sqrt Real.sin Real.cos pFrame b) (-b) = pFrame := by
    intro b
    have h := hfwd b
    cases pFrame
    simp only [gltRotateFrameLocalY] at h ⊢
    rw [h]
  exact ⟨hfwd a, hframe a, hframe (1 / 10)⟩

end Claims

end Scene
